import Mathlib

/-!
Verification of `brachiograph.py` (class `BrachioGraph`).

The development shallowly embeds the parts of the source that the claims
are about:

* the line-fitting stage of `BrachioGraph.plot_lines` (source lines
  141-241), over `ℚ` — the Python code performs only field arithmetic and
  comparisons there;
* the trigonometric methods `xy_to_angles` / `angles_to_xy` (source lines
  564-604), over `ℝ`;
* the stateful motion methods `xy`, `set_angles`, `set_pulse_widths`,
  `get_pulse_widths` (source lines 408-527), as explicit state passing on
  a record of the mutable attributes of the `BrachioGraph` object.

Python exceptions are modelled as `Except`/`Option` failures; a raised
exception aborts the computation, and — for the stateful methods — the
object keeps whatever mutations happened before the raise, which the
embedding records by returning the partially-updated state with the error.
-/

namespace BrachioGraph

/-- Python exceptions that the modelled code can raise. -/
inductive PyErr where
  /-- A `ValueError`: raised by `min()`/`max()` on an empty sequence, by
  unpacking `zip(*line)` for an empty line, and by `set_pulse_widths`
  in virtual mode for an out-of-band pulse width. -/
  | valueError
  /-- A `ZeroDivisionError`: raised by `x / divider` when `divider == 0`. -/
  | zeroDivisionError
deriving DecidableEq, Repr

/-! ## The line-fitting stage of `plot_lines` (source lines 141-241) -/

/-- The drawing area rectangle: the source's 4-tuple
`bounds = (minX, minY, maxX, maxY)`; `x0 = bounds[0]`, `y0 = bounds[1]`,
`x1 = bounds[2]`, `y1 = bounds[3]`. -/
structure Bounds where
  x0 : ℚ
  y0 : ℚ
  x1 : ℚ
  y1 : ℚ
deriving DecidableEq, Repr

/-- All first coordinates of all points of all lines — the source's
`x_values_in_lines` (a Python set; `min`/`max` over the set coincide with
`min?`/`max?` over this list). -/
def xValues (lines : List (List (ℚ × ℚ))) : List ℚ :=
  lines.flatMap fun line => line.map Prod.fst

/-- All second coordinates — the source's `y_values_in_lines`. -/
def yValues (lines : List (List (ℚ × ℚ))) : List ℚ :=
  lines.flatMap fun line => line.map Prod.snd

/-- The quantities `plot_lines` computes from the drawing and the bounds
before transforming the points (source lines 184-216).  `x_mid` / `y_mid`
are the values *after* the swap of the rotating branch (line 216). -/
structure FitParams where
  min_x : ℚ
  max_x : ℚ
  min_y : ℚ
  max_y : ℚ
  x_range : ℚ
  y_range : ℚ
  x_mid : ℚ
  y_mid : ℚ
  rotate : Bool
  divider : ℚ
deriving DecidableEq, Repr

/-- Source lines 184-216: bounding box, ranges, midpoints, the orientation
decision and the divider.  `none` when the drawing contributes no values
(`min()` of an empty sequence raises `ValueError`). -/
def fitParams (lines : List (List (ℚ × ℚ))) (bounds : Bounds) : Option FitParams :=
  match (xValues lines).min?, (xValues lines).max?,
        (yValues lines).min?, (yValues lines).max? with
  | some min_x, some max_x, some min_y, some max_y =>
    let x_range := max_x - min_x
    let y_range := max_y - min_y
    let x_mid_point := (max_x + min_x) / 2
    let y_mid_point := (max_y + min_y) / 2
    let box_x_range := bounds.x1 - bounds.x0
    let box_y_range := bounds.y1 - bounds.y0
    -- source line 207
    if (x_range ≥ y_range ∧ box_x_range ≥ box_y_range) ∨
       (x_range ≤ y_range ∧ box_x_range ≤ box_y_range) then
      some { min_x := min_x, max_x := max_x, min_y := min_y, max_y := max_y
             x_range := x_range, y_range := y_range
             x_mid := x_mid_point, y_mid := y_mid_point
             rotate := false
             divider := max (x_range / box_x_range) (y_range / box_y_range) }
    else
      some { min_x := min_x, max_x := max_x, min_y := min_y, max_y := max_y
             x_range := x_range, y_range := y_range
             -- line 216: x_mid_point, y_mid_point = y_mid_point, x_mid_point
             x_mid := y_mid_point, y_mid := x_mid_point
             rotate := true
             divider := max (x_range / box_y_range) (y_range / box_x_range) }
  | _, _, _, _ => none

/-- The per-point transformation of the fitting loop (source lines
222-241), for a non-zero divider. -/
def fitPoint (bounds : Bounds) (p : FitParams) (flip : Bool) (q : ℚ × ℚ) : ℚ × ℚ :=
  -- line 223-224: if rotate: point[0], point[1] = point[1], point[0]
  let q := if p.rotate then (q.2, q.1) else q
  let box_x_mid_point := (bounds.x0 + bounds.x1) / 2
  let box_y_mid_point := (bounds.y0 + bounds.y1) / 2
  -- lines 226-229
  let x := (q.1 - p.x_mid) / p.divider + box_x_mid_point
  -- lines 231-232: if flip ^ rotate: x = -x
  let x := if flip ≠ p.rotate then -x else x
  -- lines 236-239
  let y := (q.2 - p.y_mid) / p.divider + box_y_mid_point
  (x, y)

/-- The fitting stage of `plot_lines` (source lines 170-241).  The returned
list models the caller's `lines` argument after the loop: the source
assigns `point[0] = x` / `point[1] = y` into the very lists the caller
passed in, so on success the caller's structure holds exactly these
values.  `rotate0` is the method's `rotate` parameter, which the source
overwrites in both branches of line 207 (lines 210 and 215) without ever
reading it. -/
def fitLines (lines : List (List (ℚ × ℚ))) (rotate0 flip : Bool) (bounds : Bounds) :
    Except PyErr (List (List (ℚ × ℚ))) :=
  -- line 177: `zip(*line)` unpacked into two names raises ValueError for an
  -- empty line, before `min()` is ever reached.
  if lines.any List.isEmpty then .error .valueError
  else
    match fitParams lines bounds with
    | none => .error .valueError   -- line 184: min() arg is an empty sequence
    | some p =>
      -- line 228: `x / divider` raises ZeroDivisionError at the first point
      -- when divider == 0 (fitParams = some p guarantees there is a point).
      if p.divider = 0 then .error .zeroDivisionError
      else .ok (lines.map (List.map (fitPoint bounds p flip)))

/-- Outcome of `plot_lines` when it does not raise. -/
inductive PlotOutcome where
  /-- Lines 145-146: no bounds configured, the method returns a message
  string without plotting. -/
  | missingBounds
  /-- The fitting stage completed; the caller's `lines` now holds the
  fitted points (the subsequent plotting loop is modelled separately by
  `xy`). -/
  | fitted (lines : List (List (ℚ × ℚ)))
deriving DecidableEq, Repr

/-- Models `plot_lines` up to the end of the fitting loop (source lines 141-241).
`bounds?` collapses the `bounds` argument and the `self.bounds` attribute
(line 143: `bounds = bounds or self.bounds`). -/
def plot_lines (lines : List (List (ℚ × ℚ))) (rotate0 flip : Bool)
    (bounds? : Option Bounds) : Except PyErr PlotOutcome :=
  match bounds? with
  | none => .ok .missingBounds
  | some bounds => (fitLines lines rotate0 flip bounds).map .fitted

/-! ### Helper lemmas about `min?`/`max?` over the collected values -/

theorem min?_le_of_mem {xs : List ℚ} {m a : ℚ} (h : xs.min? = some m) (ha : a ∈ xs) :
    m ≤ a :=
  (List.le_min?_iff (fun _ _ _ => le_min_iff) h).mp le_rfl a ha

theorem le_max?_of_mem {xs : List ℚ} {m a : ℚ} (h : xs.max? = some m) (ha : a ∈ xs) :
    a ≤ m :=
  (List.max?_le_iff (fun _ _ _ => max_le_iff) h).mp le_rfl a ha

theorem min?_mem_q {xs : List ℚ} {m : ℚ} (h : xs.min? = some m) : m ∈ xs :=
  List.min?_mem (fun _ _ => min_choice _ _) h

theorem max?_mem_q {xs : List ℚ} {m : ℚ} (h : xs.max? = some m) : m ∈ xs :=
  List.max?_mem (fun _ _ => max_choice _ _) h

theorem mem_xValues {lines : List (List (ℚ × ℚ))} {q : ℚ × ℚ} {line : List (ℚ × ℚ)}
    (hl : line ∈ lines) (hq : q ∈ line) : q.1 ∈ xValues lines := by
  simp only [xValues, List.mem_flatMap]
  exact ⟨line, hl, List.mem_map_of_mem _ hq⟩

theorem mem_yValues {lines : List (List (ℚ × ℚ))} {q : ℚ × ℚ} {line : List (ℚ × ℚ)}
    (hl : line ∈ lines) (hq : q ∈ line) : q.2 ∈ yValues lines := by
  simp only [yValues, List.mem_flatMap]
  exact ⟨line, hl, List.mem_map_of_mem _ hq⟩

/-- Unpacking of a successful `fitParams`: the four extrema exist and the
remaining fields are computed from them by the branch the source takes. -/
theorem fitParams_spec {lines : List (List (ℚ × ℚ))} {bounds : Bounds} {p : FitParams}
    (h : fitParams lines bounds = some p) :
    (xValues lines).min? = some p.min_x ∧ (xValues lines).max? = some p.max_x ∧
    (yValues lines).min? = some p.min_y ∧ (yValues lines).max? = some p.max_y ∧
    p.x_range = p.max_x - p.min_x ∧ p.y_range = p.max_y - p.min_y ∧
    ((p.x_range ≥ p.y_range ∧ bounds.x1 - bounds.x0 ≥ bounds.y1 - bounds.y0) ∨
       (p.x_range ≤ p.y_range ∧ bounds.x1 - bounds.x0 ≤ bounds.y1 - bounds.y0) →
      p.rotate = false ∧
      p.x_mid = (p.max_x + p.min_x) / 2 ∧ p.y_mid = (p.max_y + p.min_y) / 2 ∧
      p.divider = max (p.x_range / (bounds.x1 - bounds.x0))
        (p.y_range / (bounds.y1 - bounds.y0))) ∧
    (¬((p.x_range ≥ p.y_range ∧ bounds.x1 - bounds.x0 ≥ bounds.y1 - bounds.y0) ∨
       (p.x_range ≤ p.y_range ∧ bounds.x1 - bounds.x0 ≤ bounds.y1 - bounds.y0)) →
      p.rotate = true ∧
      p.x_mid = (p.max_y + p.min_y) / 2 ∧ p.y_mid = (p.max_x + p.min_x) / 2 ∧
      p.divider = max (p.x_range / (bounds.y1 - bounds.y0))
        (p.y_range / (bounds.x1 - bounds.x0))) := by
  unfold fitParams at h
  cases hx1 : (xValues lines).min? with
  | none => rw [hx1] at h; exact absurd h (by simp)
  | some mnx =>
  cases hx2 : (xValues lines).max? with
  | none => rw [hx1, hx2] at h; exact absurd h (by simp)
  | some mxx =>
  cases hy1 : (yValues lines).min? with
  | none => rw [hx1, hx2, hy1] at h; exact absurd h (by simp)
  | some mny =>
  cases hy2 : (yValues lines).max? with
  | none => rw [hx1, hx2, hy1, hy2] at h; exact absurd h (by simp)
  | some mxy =>
  rw [hx1, hx2, hy1, hy2] at h
  simp only at h
  split_ifs at h with hbr
  · cases h
    exact ⟨rfl, rfl, rfl, rfl, rfl, rfl, fun _ => ⟨rfl, rfl, rfl, rfl⟩,
      fun hc => absurd hbr hc⟩
  · cases h
    exact ⟨rfl, rfl, rfl, rfl, rfl, rfl, fun hc => absurd hc hbr,
      fun _ => ⟨rfl, rfl, rfl, rfl⟩⟩

/-- A successful `fitLines` run: there was no empty line, the parameters
exist, the divider is non-zero, and the output is the pointwise
transformation. -/
theorem fitLines_ok {lines : List (List (ℚ × ℚ))} {rotate0 flip : Bool} {bounds : Bounds}
    {out : List (List (ℚ × ℚ))} (h : fitLines lines rotate0 flip bounds = .ok out) :
    lines.any List.isEmpty = false ∧
    ∃ p, fitParams lines bounds = some p ∧ p.divider ≠ 0 ∧
      out = lines.map (List.map (fitPoint bounds p flip)) := by
  unfold fitLines at h
  split_ifs at h with he
  cases hp : fitParams lines bounds with
  | none => rw [hp] at h; exact absurd h (by simp)
  | some p =>
    rw [hp] at h
    simp only at h
    split_ifs at h with hd
    refine ⟨eq_false_of_ne_true he, p, rfl, hd, ?_⟩
    cases h; rfl

/-- Case split on the branch of line 207 that a successful `fitParams` took. -/
theorem fitParams_cases {lines : List (List (ℚ × ℚ))} {bounds : Bounds} {p : FitParams}
    (h : fitParams lines bounds = some p) :
    (p.rotate = false ∧ p.x_mid = (p.max_x + p.min_x) / 2 ∧
       p.y_mid = (p.max_y + p.min_y) / 2 ∧
       p.divider = max (p.x_range / (bounds.x1 - bounds.x0))
         (p.y_range / (bounds.y1 - bounds.y0))) ∨
    (p.rotate = true ∧ p.x_mid = (p.max_y + p.min_y) / 2 ∧
       p.y_mid = (p.max_x + p.min_x) / 2 ∧
       p.divider = max (p.x_range / (bounds.y1 - bounds.y0))
         (p.y_range / (bounds.x1 - bounds.x0))) := by
  rcases fitParams_spec h with ⟨-, -, -, -, -, -, h1, h2⟩
  by_cases hbr : (p.x_range ≥ p.y_range ∧ bounds.x1 - bounds.x0 ≥ bounds.y1 - bounds.y0) ∨
      (p.x_range ≤ p.y_range ∧ bounds.x1 - bounds.x0 ≤ bounds.y1 - bounds.y0)
  · exact Or.inl (h1 hbr)
  · exact Or.inr (h2 hbr)

/-- Scaling a value of `[mn, mx]` by a divider at least as large as the
ratio of the ranges and re-centering it on the box midpoint lands inside
the box interval. -/
theorem scale_in_box {mn mx b0 b1 d a : ℚ} (h1 : mn ≤ a) (h2 : a ≤ mx)
    (hb : b0 < b1) (hd0 : 0 < d) (hd : (mx - mn) / (b1 - b0) ≤ d) :
    b0 ≤ (a - (mx + mn) / 2) / d + (b0 + b1) / 2 ∧
      (a - (mx + mn) / 2) / d + (b0 + b1) / 2 ≤ b1 := by
  have hb' : 0 < b1 - b0 := by linarith
  rw [div_le_iff hb'] at hd
  have habs : |a - (mx + mn) / 2| ≤ (mx - mn) / 2 :=
    abs_le.mpr ⟨by linarith, by linarith⟩
  have h3 : |(a - (mx + mn) / 2) / d| ≤ (b1 - b0) / 2 := by
    rw [abs_div, abs_of_pos hd0, div_le_iff hd0]
    calc |a - (mx + mn) / 2| ≤ (mx - mn) / 2 := habs
      _ ≤ (b1 - b0) / 2 * d := by nlinarith
  have h4 := abs_le.mp h3
  exact ⟨by linarith [h4.1], by linarith [h4.2]⟩

/-- C1 (amended):  For every Drawing with positive x- and y-extent and
every Bounds rectangle with `minX < maxX` and `minY < maxY`, after the
fitting stage of `plot_lines` runs, every transformed point satisfies
`minY ≤ point[1] ≤ maxY`; and `minX ≤ point[0] ≤ maxX` holds provided the
x-negating branch of line 231 is not taken (`flip` equals the computed
rotation) or the x-bounds are symmetric about zero (`minX = -maxX`).
(The claim as stated — for any value of `flip` — fails: when
`flip XOR rotate` the fitted x is negated out of a box that is not
symmetric in x; see the counterexample.) -/
theorem plot_lines_containment
    {lines : List (List (ℚ × ℚ))} {rotate0 flip : Bool} {bounds : Bounds}
    {out : List (List (ℚ × ℚ))} {p : FitParams}
    (hp : fitParams lines bounds = some p)
    (hout : fitLines lines rotate0 flip bounds = .ok out)
    (hxr : 0 < p.x_range) (hyr : 0 < p.y_range)
    (hbx : bounds.x0 < bounds.x1) (hby : bounds.y0 < bounds.y1) :
    ∀ q ∈ out.flatten,
      (bounds.y0 ≤ q.2 ∧ q.2 ≤ bounds.y1) ∧
      ((flip = p.rotate ∨ bounds.x0 = -bounds.x1) →
        bounds.x0 ≤ q.1 ∧ q.1 ≤ bounds.x1) := by
  obtain ⟨-, p', hp', hd0, rfl⟩ := fitLines_ok hout
  rw [hp] at hp'
  cases hp'
  intro q hq
  simp only [List.mem_flatten, List.mem_map] at hq
  obtain ⟨l, ⟨l0, hl0, rfl⟩, hql⟩ := hq
  obtain ⟨orig, horig, rfl⟩ := List.mem_map.mp hql
  rcases fitParams_spec hp with ⟨hmnx, hmxx, hmny, hmxy, hxr_eq, hyr_eq, -, -⟩
  have hx1 : p.min_x ≤ orig.1 := min?_le_of_mem hmnx (mem_xValues hl0 horig)
  have hx2 : orig.1 ≤ p.max_x := le_max?_of_mem hmxx (mem_xValues hl0 horig)
  have hy1 : p.min_y ≤ orig.2 := min?_le_of_mem hmny (mem_yValues hl0 horig)
  have hy2 : orig.2 ≤ p.max_y := le_max?_of_mem hmxy (mem_yValues hl0 horig)
  rcases fitParams_cases hp with ⟨hrot, hxm, hym, hdiv⟩ | ⟨hrot, hxm, hym, hdiv⟩
  · -- no rotation: x from [min_x, max_x], y from [min_y, max_y]
    have hdx : p.x_range / (bounds.x1 - bounds.x0) ≤ p.divider :=
      hdiv ▸ le_max_left _ _
    have hdy : p.y_range / (bounds.y1 - bounds.y0) ≤ p.divider :=
      hdiv ▸ le_max_right _ _
    have hdpos : 0 < p.divider :=
      lt_of_lt_of_le (div_pos hxr (by linarith)) hdx
    rw [hxr_eq] at hdx
    rw [hyr_eq] at hdy
    have hxin := scale_in_box hx1 hx2 hbx hdpos hdx
    have hyin := scale_in_box hy1 hy2 hby hdpos hdy
    simp only [fitPoint, hrot, if_false, Bool.false_eq_true]
    rw [hxm, hym]
    refine ⟨⟨hyin.1, hyin.2⟩, fun hc => ?_⟩
    rcases hc with hc | hc
    · rw [hc]
      simpa using hxin
    · split_ifs
      · rw [hc] at hxin ⊢
        constructor <;> linarith [hxin.1, hxin.2]
      · exact hxin
  · -- rotation: the point is swapped; x from [min_y, max_y], y from [min_x, max_x]
    have hdx : p.y_range / (bounds.x1 - bounds.x0) ≤ p.divider :=
      hdiv ▸ le_max_right _ _
    have hdy : p.x_range / (bounds.y1 - bounds.y0) ≤ p.divider :=
      hdiv ▸ le_max_left _ _
    have hdpos : 0 < p.divider :=
      lt_of_lt_of_le (div_pos hyr (by linarith)) hdx
    rw [hyr_eq] at hdx
    rw [hxr_eq] at hdy
    have hxin := scale_in_box hy1 hy2 hbx hdpos hdx
    have hyin := scale_in_box hx1 hx2 hby hdpos hdy
    simp only [fitPoint, hrot, if_true]
    rw [hxm, hym]
    refine ⟨⟨hyin.1, hyin.2⟩, fun hc => ?_⟩
    rcases hc with hc | hc
    · rw [hc]
      simpa using hxin
    · split_ifs
      · rw [hc] at hxin ⊢
        constructor <;> linarith [hxin.1, hxin.2]
      · exact hxin

/-- C1 (counterexample):  The claim fails for `flip = True`: with the
drawing `[[(0,0),(2,1)]]` and bounds `(1,1,3,3)` the fitting stage takes
the non-rotating branch and negates x (line 231), landing the first point
at x = -1, outside `[1, 3]`. -/
theorem plot_lines_containment_cex :
    fitLines [[(0,0),(2,1)]] false true ⟨1,1,3,3⟩ = .ok [[(-1, 3/2), (-3, 5/2)]] ∧
      ¬((1 : ℚ) ≤ -1) := by
  constructor
  · norm_num [fitLines, fitParams, fitPoint, xValues, yValues]
  · norm_num

def c1lines : List (List (ℚ × ℚ)) := [[(0,0),(2,1)]]

def c1bounds : Bounds := ⟨1,1,3,3⟩

def c1p : FitParams := ⟨0, 2, 0, 1, 2, 1, 1, 1/2, false, 1⟩

/-- Witness for `plot_lines_containment` at a concrete drawing with
`flip = false`. -/
theorem plot_lines_containment_witness :
    fitParams c1lines c1bounds = some c1p ∧
    fitLines c1lines false false c1bounds = .ok [[(1, 3/2), (3, 5/2)]] ∧
    (0 : ℚ) < c1p.x_range ∧ (0 : ℚ) < c1p.y_range ∧
    c1bounds.x0 < c1bounds.x1 ∧ c1bounds.y0 < c1bounds.y1 ∧
    ((c1bounds.y0 ≤ ((1:ℚ), (3:ℚ)/2).2 ∧ ((1:ℚ), (3:ℚ)/2).2 ≤ c1bounds.y1) ∧
      ((false = c1p.rotate ∨ c1bounds.x0 = -c1bounds.x1) →
        c1bounds.x0 ≤ ((1:ℚ), (3:ℚ)/2).1 ∧ ((1:ℚ), (3:ℚ)/2).1 ≤ c1bounds.x1)) := by
  have hp : fitParams c1lines c1bounds = some c1p := by
    norm_num [c1lines, c1bounds, c1p, fitParams, xValues, yValues]
  have hout : fitLines c1lines false false c1bounds = .ok [[(1, 3/2), (3, 5/2)]] := by
    norm_num [c1lines, c1bounds, fitLines, fitParams, fitPoint, xValues, yValues]
  refine ⟨hp, hout, by norm_num [c1p], by norm_num [c1p],
    by norm_num [c1bounds], by norm_num [c1bounds], ?_⟩
  exact plot_lines_containment hp hout (by norm_num [c1p]) (by norm_num [c1p])
    (by norm_num [c1bounds]) (by norm_num [c1bounds]) (1, 3/2) (by norm_num)

/-- The pure form of the orientation decision of line 207: the source's
non-strict condition for *not* rotating is equivalent to rotating exactly
when one of the two strict mixed cases holds. -/
theorem rotate_cond_iff (xr yr bX bY : ℚ) :
    ¬((xr ≥ yr ∧ bX ≥ bY) ∨ (xr ≤ yr ∧ bX ≤ bY)) ↔
      ((xr < yr ∧ bY < bX) ∨ (yr < xr ∧ bX < bY)) := by
  constructor
  · intro h
    push_neg at h
    obtain ⟨h1, h2⟩ := h
    rcases lt_trichotomy xr yr with hx | hx | hx
    · exact Or.inl ⟨hx, h2 (le_of_lt hx)⟩
    · have hb1 := h1 (le_of_eq hx.symm)
      have hb2 := h2 (le_of_eq hx)
      linarith
    · exact Or.inr ⟨hx, h1 (le_of_lt hx)⟩
  · rintro (⟨h1, h2⟩ | ⟨h1, h2⟩) (⟨ha, hb⟩ | ⟨ha, hb⟩) <;> linarith

/-- C6 (amended):  `plot_lines` rotates the drawing if and only if the
shape classes differ *strictly*: `(xRange < yRange and boxYRange <
boxXRange)` or `(yRange < xRange and boxXRange < boxYRange)` — with ties
on either side the non-rotating branch is taken (the claim's condition
`(xRange ≥ yRange) ≠ (boxXRange ≥ boxYRange)` disagrees on ties).  When
rotating, divider = max(xRange/boxYRange, yRange/boxXRange) and the
midpoints are swapped; otherwise divider = max(xRange/boxXRange,
yRange/boxYRange).  In the example — bounding box (0,0)-(10,20), bounds
(-5,-5,5,5) — the box ranges tie (10 = 10), so the rotation branch is
*not* taken, with divider = 2. -/
theorem plot_lines_rotation :
    (∀ (lines : List (List (ℚ × ℚ))) (bounds : Bounds) (p : FitParams),
        fitParams lines bounds = some p →
        (p.rotate = true ↔
          ((p.x_range < p.y_range ∧ bounds.y1 - bounds.y0 < bounds.x1 - bounds.x0) ∨
           (p.y_range < p.x_range ∧ bounds.x1 - bounds.x0 < bounds.y1 - bounds.y0))) ∧
        (p.rotate = true →
          p.divider = max (p.x_range / (bounds.y1 - bounds.y0))
              (p.y_range / (bounds.x1 - bounds.x0)) ∧
            p.x_mid = (p.max_y + p.min_y) / 2 ∧ p.y_mid = (p.max_x + p.min_x) / 2) ∧
        (p.rotate = false →
          p.divider = max (p.x_range / (bounds.x1 - bounds.x0))
            (p.y_range / (bounds.y1 - bounds.y0)))) ∧
    fitParams [[(0,0),(10,20)]] ⟨-5,-5,5,5⟩ =
      some { min_x := 0, max_x := 10, min_y := 0, max_y := 20,
             x_range := 10, y_range := 20, x_mid := 5, y_mid := 10,
             rotate := false, divider := 2 } := by
  constructor
  · intro lines bounds p hp
    by_cases hbr : (p.x_range ≥ p.y_range ∧ bounds.x1 - bounds.x0 ≥ bounds.y1 - bounds.y0) ∨
        (p.x_range ≤ p.y_range ∧ bounds.x1 - bounds.x0 ≤ bounds.y1 - bounds.y0)
    · obtain ⟨hrot, -, -, hdiv⟩ := (fitParams_spec hp).2.2.2.2.2.2.1 hbr
      rw [hrot]
      refine ⟨⟨fun h => absurd h (by simp), fun hs => ?_⟩, fun h => absurd h (by simp),
        fun _ => hdiv⟩
      exact absurd hbr ((rotate_cond_iff _ _ _ _).mpr hs)
    · obtain ⟨hrot, hxm, hym, hdiv⟩ := (fitParams_spec hp).2.2.2.2.2.2.2 hbr
      rw [hrot]
      exact ⟨⟨fun _ => (rotate_cond_iff _ _ _ _).mp hbr, fun _ => rfl⟩,
        fun _ => ⟨hdiv, hxm, hym⟩, fun h => absurd h (by simp)⟩
  · norm_num [fitParams, xValues, yValues]

/-- C6 (counterexample):  At the spec's own example — drawing bounding
box (0,0)-(10,20), bounds (-5,-5,5,5) — the shape classes differ in the
claim's sense (`10 ≥ 20` is false, `10 ≥ 10` is true), yet the code takes
the *non*-rotating branch (line 207's second disjunct `10 ≤ 20 ∧ 10 ≤ 10`
holds). -/
theorem plot_lines_rotation_cex :
    (fitParams [[(0,0),(10,20)]] ⟨-5,-5,5,5⟩).map FitParams.rotate = some false ∧
      ¬(((10:ℚ) ≥ 20) ↔ ((10:ℚ) ≥ 10)) := by
  constructor
  · norm_num [fitParams, xValues, yValues]
  · norm_num

def c6lines : List (List (ℚ × ℚ)) := [[(0,0),(10,20)]]

def c6bounds : Bounds := ⟨-5,-5,5,5⟩

def c6p : FitParams := ⟨0, 10, 0, 20, 10, 20, 5, 10, false, 2⟩

/-- Witness for `plot_lines_rotation` at the example drawing. -/
theorem plot_lines_rotation_witness :
    fitParams c6lines c6bounds = some c6p ∧
    ((c6p.rotate = true ↔
        ((c6p.x_range < c6p.y_range ∧ c6bounds.y1 - c6bounds.y0 < c6bounds.x1 - c6bounds.x0) ∨
         (c6p.y_range < c6p.x_range ∧ c6bounds.x1 - c6bounds.x0 < c6bounds.y1 - c6bounds.y0))) ∧
      (c6p.rotate = true →
        c6p.divider = max (c6p.x_range / (c6bounds.y1 - c6bounds.y0))
            (c6p.y_range / (c6bounds.x1 - c6bounds.x0)) ∧
          c6p.x_mid = (c6p.max_y + c6p.min_y) / 2 ∧ c6p.y_mid = (c6p.max_x + c6p.min_x) / 2) ∧
      (c6p.rotate = false →
        c6p.divider = max (c6p.x_range / (c6bounds.x1 - c6bounds.x0))
          (c6p.y_range / (c6bounds.y1 - c6bounds.y0)))) := by
  have hp : fitParams c6lines c6bounds = some c6p := by
    norm_num [c6lines, c6bounds, c6p, fitParams, xValues, yValues]
  exact ⟨hp, plot_lines_rotation.1 c6lines c6bounds c6p hp⟩

/-- C7 (amended):  The divider computed by the fitting stage is 0 if
and only if *both* `xRange` and `yRange` are 0 (a drawing whose points all
coincide); in that case the division of the first point raises
(`ZeroDivisionError`) rather than silently producing infinities.  When
only one range is 0 the divider is positive and no error is raised, so
the claim's "xRange is 0 *or* yRange is 0" condition is too weak. -/
theorem plot_lines_divider_zero :
    ∀ (lines : List (List (ℚ × ℚ))) (rotate0 flip : Bool) (bounds : Bounds) (p : FitParams),
      fitParams lines bounds = some p →
      (∀ l ∈ lines, l ≠ []) →
      bounds.x0 < bounds.x1 → bounds.y0 < bounds.y1 →
      ((p.divider = 0 ↔ (p.x_range = 0 ∧ p.y_range = 0)) ∧
        (p.divider = 0 → fitLines lines rotate0 flip bounds = .error .zeroDivisionError)) := by
  intro lines rotate0 flip bounds p hp hne hbx hby
  rcases fitParams_spec hp with ⟨hmnx, hmxx, hmny, hmxy, hxr_eq, hyr_eq, -, -⟩
  have hxr0 : 0 ≤ p.x_range := by
    rw [hxr_eq]
    have := min?_le_of_mem hmnx (max?_mem_q hmxx)
    linarith
  have hyr0 : 0 ≤ p.y_range := by
    rw [hyr_eq]
    have := min?_le_of_mem hmny (max?_mem_q hmxy)
    linarith
  have hBx : (0:ℚ) < bounds.x1 - bounds.x0 := by linarith
  have hBy : (0:ℚ) < bounds.y1 - bounds.y0 := by linarith
  have hmax0 : ∀ a b : ℚ, 0 ≤ a → 0 ≤ b → (max a b = 0 ↔ a = 0 ∧ b = 0) := by
    intro a b ha hb
    constructor
    · intro h
      constructor
      · exact le_antisymm (h ▸ le_max_left a b) ha
      · exact le_antisymm (h ▸ le_max_right a b) hb
    · rintro ⟨rfl, rfl⟩
      simp
  have hiff : p.divider = 0 ↔ (p.x_range = 0 ∧ p.y_range = 0) := by
    rcases fitParams_cases hp with ⟨-, -, -, hdiv⟩ | ⟨-, -, -, hdiv⟩
    · rw [hdiv, hmax0 _ _ (div_nonneg hxr0 (le_of_lt hBx)) (div_nonneg hyr0 (le_of_lt hBy)),
        div_eq_zero_iff, div_eq_zero_iff]
      constructor
      · rintro ⟨hx | hx, hy | hy⟩ <;> first | exact ⟨hx, hy⟩ | linarith
      · rintro ⟨hx, hy⟩
        exact ⟨Or.inl hx, Or.inl hy⟩
    · rw [hdiv, hmax0 _ _ (div_nonneg hxr0 (le_of_lt hBy)) (div_nonneg hyr0 (le_of_lt hBx)),
        div_eq_zero_iff, div_eq_zero_iff]
      constructor
      · rintro ⟨hx | hx, hy | hy⟩ <;> first | exact ⟨hx, hy⟩ | linarith
      · rintro ⟨hx, hy⟩
        exact ⟨Or.inl hx, Or.inl hy⟩
  refine ⟨hiff, fun hd => ?_⟩
  have hany : lines.any List.isEmpty = false := by
    rw [List.any_eq_false]
    intro l hl
    simpa [List.isEmpty_iff] using hne l hl
  unfold fitLines
  rw [hany, hp]
  simp [hd]

/-- C7 (counterexample):  A drawing with `xRange = 0` but `yRange = 10`
(a vertical line): the divider is 1, not 0, and the fitting stage succeeds
— no error is raised, refuting the claim's "xRange is 0 *or* yRange is 0"
condition. -/
theorem plot_lines_divider_zero_cex :
    (fitParams [[(0,0),(0,10)]] ⟨0,0,10,10⟩).map FitParams.x_range = some 0 ∧
    (fitParams [[(0,0),(0,10)]] ⟨0,0,10,10⟩).map FitParams.divider = some 1 ∧
    (1:ℚ) ≠ 0 ∧
    fitLines [[(0,0),(0,10)]] false false ⟨0,0,10,10⟩ = .ok [[(5,0),(5,10)]] := by
  refine ⟨?_, ?_, by norm_num, ?_⟩ <;>
    norm_num [fitParams, fitLines, fitPoint, xValues, yValues]

def c7lines : List (List (ℚ × ℚ)) := [[(3,4)]]

def c7bounds : Bounds := ⟨0,0,10,10⟩

def c7p : FitParams := ⟨3, 3, 4, 4, 0, 0, 3, 4, false, 0⟩

/-- Witness for `plot_lines_divider_zero`: a single-point drawing has both
ranges 0, divider 0, and the fit raises the division error. -/
theorem plot_lines_divider_zero_witness :
    fitParams c7lines c7bounds = some c7p ∧
    ((c7p.divider = 0 ↔ (c7p.x_range = 0 ∧ c7p.y_range = 0)) ∧
      (c7p.divider = 0 → fitLines c7lines false false c7bounds = .error .zeroDivisionError)) := by
  have hp : fitParams c7lines c7bounds = some c7p := by
    norm_num [c7lines, c7bounds, c7p, fitParams, xValues, yValues]
  exact ⟨hp, plot_lines_divider_zero c7lines false false c7bounds c7p hp
    (by simp [c7lines]) (by norm_num [c7bounds]) (by norm_num [c7bounds])⟩

/-- C9:  `plot_lines` overwrites its `lines` argument: the loop of
lines 220-241 assigns the fitted values into the caller's point lists, so
after a successful fitting stage the caller's structure holds exactly the
transformed coordinates (here: the returned buffer), and in general not
the original ones — witnessed by a drawing whose fitted coordinates
differ from the originals. -/
theorem plot_lines_mutates :
    (∀ (lines : List (List (ℚ × ℚ))) (rotate0 flip : Bool) (bounds : Bounds)
        (p : FitParams) (out : List (List (ℚ × ℚ))),
        fitParams lines bounds = some p →
        fitLines lines rotate0 flip bounds = .ok out →
        out = lines.map (List.map (fitPoint bounds p flip))) ∧
    (fitLines [[(0,0),(2,2)]] false false ⟨0,0,4,4⟩ = .ok [[(0,0),(4,4)]] ∧
      [[((0:ℚ),(0:ℚ)),(4,4)]] ≠ [[(0,0),(2,2)]]) := by
  refine ⟨?_, ?_, ?_⟩
  · intro lines rotate0 flip bounds p out hp hout
    obtain ⟨-, p', hp', -, rfl⟩ := fitLines_ok hout
    rw [hp] at hp'
    cases hp'
    rfl
  · norm_num [fitLines, fitParams, fitPoint, xValues, yValues]
  · norm_num

def c9lines : List (List (ℚ × ℚ)) := [[(0,0),(2,2)]]

def c9bounds : Bounds := ⟨0,0,4,4⟩

def c9p : FitParams := ⟨0, 2, 0, 2, 2, 2, 1, 1, false, 1/2⟩

/-- Witness for `plot_lines_mutates` at a concrete drawing. -/
theorem plot_lines_mutates_witness :
    fitParams c9lines c9bounds = some c9p ∧
    fitLines c9lines false false c9bounds = .ok [[(0,0),(4,4)]] ∧
    [[((0:ℚ),(0:ℚ)),(4,4)]] = c9lines.map (List.map (fitPoint c9bounds c9p false)) := by
  have hp : fitParams c9lines c9bounds = some c9p := by
    norm_num [c9lines, c9bounds, c9p, fitParams, xValues, yValues]
  have hout : fitLines c9lines false false c9bounds = .ok [[(0,0),(4,4)]] := by
    norm_num [c9lines, c9bounds, fitLines, fitParams, fitPoint, xValues, yValues]
  exact ⟨hp, hout, plot_lines_mutates.1 c9lines false false c9bounds c9p _ hp hout⟩

/-- C10:  Calling `plot_lines` with an empty drawing (`lines == []`,
its default) and a configured bounds raises: the value sets stay empty and
`min()` (line 184) raises `ValueError` — the call does not return
normally. -/
theorem plot_lines_empty_raises :
    ∀ (rotate0 flip : Bool) (bounds : Bounds),
      plot_lines [] rotate0 flip (some bounds) = .error .valueError := by
  intro rotate0 flip bounds
  rfl

/-! ## Kinematics: `xy_to_angles` / `angles_to_xy` (source lines 564-604)

The Python floats are modelled as real numbers (the claims are stated
"exactly, when stated over the reals").  A failure (`ZeroDivisionError`
from a division by zero, `ValueError: math domain error` from `asin` /
`acos` outside [-1, 1] or `sqrt` of a negative) is modelled as `none`; the
spec's error taxonomy names all of these `UnreachablePositionError`. -/

noncomputable section Kinematics

open Real

/-- Models `math.degrees`. -/
def degrees (t : ℝ) : ℝ := t * 180 / π

/-- Models `math.radians`. -/
def radians (d : ℝ) : ℝ := d * π / 180

theorem radians_degrees (t : ℝ) : radians (degrees t) = t := by
  unfold radians degrees
  field_simp

/-- Line 568: `hypotenuse = math.sqrt(x**2 + y**2)`. -/
def hypotenuse (x y : ℝ) : ℝ := Real.sqrt (x ^ 2 + y ^ 2)

/-- The argument of the first `acos` of `xy_to_angles` (line 572). -/
def innerAngleArg (inner outer x y : ℝ) : ℝ :=
  (hypotenuse x y ^ 2 + inner ^ 2 - outer ^ 2) / (2 * hypotenuse x y * inner)

/-- The argument of the second `acos` of `xy_to_angles` (line 575). -/
def outerAngleArg (inner outer x y : ℝ) : ℝ :=
  (inner ^ 2 + outer ^ 2 - hypotenuse x y ^ 2) / (2 * inner * outer)

/-- Models `BrachioGraph.xy_to_angles` (source lines 564-581), for arm lengths
`inner = self.INNER_ARM`, `outer = self.OUTER_ARM`.  The guards model, in
source order, the exceptions Python raises: division `x / hypotenuse` by
zero, the `asin` domain, division by `2 * hypotenuse * inner = 0`, the
first `acos` domain, division by `2 * inner * outer = 0`, the second
`acos` domain.  (`math.sqrt(x**2 + y**2)` itself cannot fail: its argument
is a sum of squares.) -/
def xy_to_angles (inner outer x y : ℝ) : Option (ℝ × ℝ) :=
  if hypotenuse x y = 0 then none
  else if 1 < |x / hypotenuse x y| then none
  else if 2 * hypotenuse x y * inner = 0 then none
  else if 1 < |innerAngleArg inner outer x y| then none
  else if 2 * inner * outer = 0 then none
  else if 1 < |outerAngleArg inner outer x y| then none
  else
    some (degrees (arcsin (x / hypotenuse x y) - arccos (innerAngleArg inner outer x y)),
          degrees (π - arccos (outerAngleArg inner outer x y)))

/-- Line 591: the `hypotenuse` local of `angles_to_xy`, recovered from the
elbow motor angle by the law of cosines. -/
def atxHypotenuse (inner outer elbow : ℝ) : ℝ :=
  Real.sqrt (inner ^ 2 + outer ^ 2 - 2 * inner * outer * Real.cos (π - radians elbow))

/-- Line 596: the argument of the `acos` computing `base_angle`. -/
def baseAngleArg (inner outer elbow : ℝ) : ℝ :=
  (atxHypotenuse inner outer elbow ^ 2 + inner ^ 2 - outer ^ 2) /
    (2 * atxHypotenuse inner outer elbow * inner)

/-- Models `BrachioGraph.angles_to_xy` (source lines 584-604).  Guards in source
order: `math.sqrt` of a negative, division by `2 * hypotenuse * inner = 0`,
the `acos` domain. -/
def angles_to_xy (inner outer shoulder elbow : ℝ) : Option (ℝ × ℝ) :=
  if inner ^ 2 + outer ^ 2 - 2 * inner * outer * Real.cos (π - radians elbow) < 0 then none
  else if 2 * atxHypotenuse inner outer elbow * inner = 0 then none
  else if 1 < |baseAngleArg inner outer elbow| then none
  else
    some (Real.sin (arccos (baseAngleArg inner outer elbow) + radians shoulder) *
            atxHypotenuse inner outer elbow,
          Real.cos (arccos (baseAngleArg inner outer elbow) + radians shoulder) *
            atxHypotenuse inner outer elbow)

/-- Composite `angles_to_xy` applied to the result of `xy_to_angles` (the spec's
round-trip contract). -/
def roundtrip (inner outer x y : ℝ) : Option (ℝ × ℝ) :=
  (xy_to_angles inner outer x y).bind fun a => angles_to_xy inner outer a.1 a.2

theorem hypotenuse_nonneg (x y : ℝ) : 0 ≤ hypotenuse x y := Real.sqrt_nonneg _

theorem hypotenuse_sq (x y : ℝ) : hypotenuse x y ^ 2 = x ^ 2 + y ^ 2 :=
  Real.sq_sqrt (by positivity)

theorem abs_x_le_hypotenuse (x y : ℝ) : |x| ≤ hypotenuse x y := by
  rw [← Real.sqrt_sq_eq_abs]
  exact Real.sqrt_le_sqrt (by nlinarith)

/-- Inside the closed annulus `|inner - outer| ≤ h ≤ inner + outer`, both
`acos` arguments of `xy_to_angles` lie in `[-1, 1]`. -/
theorem acos_args_bounded {inner outer h : ℝ} (hi : 0 < inner) (ho : 0 < outer)
    (hh : 0 < h) (hl : |inner - outer| ≤ h) (hu : h ≤ inner + outer) :
    |(h ^ 2 + inner ^ 2 - outer ^ 2) / (2 * h * inner)| ≤ 1 ∧
      |(inner ^ 2 + outer ^ 2 - h ^ 2) / (2 * inner * outer)| ≤ 1 := by
  have habs := abs_le.mp hl
  constructor
  · rw [abs_div, abs_of_pos (by positivity : (0:ℝ) < 2 * h * inner),
      div_le_one (by positivity : (0:ℝ) < 2 * h * inner)]
    have e1 : 0 ≤ outer - (h - inner) := by linarith [habs.1]
    have e2 : 0 ≤ outer + (h - inner) := by linarith [habs.2]
    have e3 : 0 ≤ (h + inner) - outer := by linarith [habs.1]
    have e4 : 0 ≤ (h + inner) + outer := by linarith
    refine abs_le.mpr ⟨?_, ?_⟩
    · nlinarith [mul_nonneg e3 e4]
    · nlinarith [mul_nonneg e1 e2]
  · rw [abs_div, abs_of_pos (by positivity : (0:ℝ) < 2 * inner * outer),
      div_le_one (by positivity : (0:ℝ) < 2 * inner * outer)]
    have e5 : 0 ≤ h - (inner - outer) := by linarith [habs.2]
    have e6 : 0 ≤ h + (inner - outer) := by linarith [habs.1]
    have e7 : 0 ≤ (inner + outer) - h := by linarith
    have e8 : 0 ≤ (inner + outer) + h := by linarith
    refine abs_le.mpr ⟨?_, ?_⟩
    · nlinarith [mul_nonneg e5 e6]
    · nlinarith [mul_nonneg e7 e8]

/-- The two `acos` arguments, phrased through the definitions used by
`xy_to_angles`. -/
theorem angleArgs_le {inner outer x y : ℝ} (hi : 0 < inner) (ho : 0 < outer)
    (hh : 0 < hypotenuse x y) (hl : |inner - outer| ≤ hypotenuse x y)
    (hu : hypotenuse x y ≤ inner + outer) :
    |innerAngleArg inner outer x y| ≤ 1 ∧ |outerAngleArg inner outer x y| ≤ 1 := by
  unfold innerAngleArg outerAngleArg
  exact acos_args_bounded hi ho hh hl hu

/-- Strictly inside the annulus, all guards of `xy_to_angles` pass and the
Python computation of lines 568-581 returns the two motor angles. -/
theorem xy_to_angles_eq (inner outer x y : ℝ) (hi : 0 < inner) (ho : 0 < outer)
    (h1 : |inner - outer| < hypotenuse x y) (h2 : hypotenuse x y < inner + outer) :
    xy_to_angles inner outer x y =
      some (degrees (arcsin (x / hypotenuse x y) - arccos (innerAngleArg inner outer x y)),
            degrees (π - arccos (outerAngleArg inner outer x y))) := by
  have hh : 0 < hypotenuse x y := lt_of_le_of_lt (abs_nonneg _) h1
  have hxb : |x / hypotenuse x y| ≤ 1 := by
    rw [abs_div, abs_of_pos hh, div_le_one hh]
    exact abs_x_le_hypotenuse x y
  obtain ⟨hA1, hA2⟩ := angleArgs_le hi ho hh (le_of_lt h1) (le_of_lt h2)
  unfold xy_to_angles
  rw [if_neg (ne_of_gt hh), if_neg (not_lt.mpr hxb),
    if_neg (ne_of_gt (by positivity : (0:ℝ) < 2 * hypotenuse x y * inner)),
    if_neg (not_lt.mpr hA1),
    if_neg (ne_of_gt (by positivity : (0:ℝ) < 2 * inner * outer)),
    if_neg (not_lt.mpr hA2)]

/-- C3:  For positive arm lengths, `xy_to_angles` fails (raises — the
spec's `UnreachablePositionError`, concretely Python's
`ZeroDivisionError` at the pivot / `ValueError: math domain error` from
`acos`) exactly when the hypotenuse is 0 or lies strictly outside the
annulus `[|inner - outer|, inner + outer]`, and raises no error for a
hypotenuse strictly inside the annulus. -/
theorem xy_to_angles_unreachable (inner outer x y : ℝ) (hi : 0 < inner) (ho : 0 < outer) :
    ((hypotenuse x y = 0 ∨ hypotenuse x y < |inner - outer| ∨
        inner + outer < hypotenuse x y) →
      xy_to_angles inner outer x y = none) ∧
    (|inner - outer| < hypotenuse x y → hypotenuse x y < inner + outer →
      (xy_to_angles inner outer x y).isSome = true) := by
  constructor
  · intro hcond
    rcases hcond with h0 | hlt | hgt
    · unfold xy_to_angles
      rw [if_pos h0]
    · rcases eq_or_lt_of_le (hypotenuse_nonneg x y) with h0 | hpos
      · unfold xy_to_angles
        rw [if_pos h0.symm]
      · have hsq : hypotenuse x y ^ 2 < (inner - outer) ^ 2 := by
          nlinarith [sq_abs (inner - outer), abs_nonneg (inner - outer)]
        have hbig : 1 < outerAngleArg inner outer x y := by
          unfold outerAngleArg
          rw [lt_div_iff (by positivity : (0:ℝ) < 2 * inner * outer)]
          nlinarith
        have habs : 1 < |outerAngleArg inner outer x y| :=
          lt_of_lt_of_le hbig (le_abs_self _)
        unfold xy_to_angles
        split_ifs <;> try rfl
    · have hpos : 0 < hypotenuse x y := lt_trans (by positivity) hgt
      have hsq : (inner + outer) ^ 2 < hypotenuse x y ^ 2 := by nlinarith
      have hsmall : outerAngleArg inner outer x y < -1 := by
        unfold outerAngleArg
        rw [div_lt_iff (by positivity : (0:ℝ) < 2 * inner * outer)]
        nlinarith
      have habs : 1 < |outerAngleArg inner outer x y| := by
        rw [lt_abs]
        right
        linarith
      unfold xy_to_angles
      split_ifs <;> try rfl
  · intro h1 h2
    have hh : 0 < hypotenuse x y := lt_of_le_of_lt (abs_nonneg _) h1
    have hxh : |x / hypotenuse x y| ≤ 1 := by
      rw [abs_div, abs_of_pos hh, div_le_one hh]
      exact abs_x_le_hypotenuse x y
    obtain ⟨hA1, hA2⟩ := angleArgs_le hi ho hh (le_of_lt h1) (le_of_lt h2)
    unfold xy_to_angles
    rw [if_neg (ne_of_gt hh), if_neg (not_lt.mpr hxh),
      if_neg (ne_of_gt (by positivity : (0:ℝ) < 2 * hypotenuse x y * inner)),
      if_neg (not_lt.mpr hA1),
      if_neg (ne_of_gt (by positivity : (0:ℝ) < 2 * inner * outer)),
      if_neg (not_lt.mpr hA2)]
    rfl

/-- What the composite `angles_to_xy ∘ xy_to_angles` really computes for a
target strictly inside the annulus: `(x, |y|)`.  The `y`-coordinate comes
back as `cos (arcsin (x/h)) * h = √(1 - x²/h²) · h = |y|`, which loses the
sign of `y`. -/
theorem roundtrip_abs (inner outer x y : ℝ) (hi : 0 < inner) (ho : 0 < outer)
    (h1 : |inner - outer| < hypotenuse x y) (h2 : hypotenuse x y < inner + outer) :
    roundtrip inner outer x y = some (x, |y|) := by
  have hh : 0 < hypotenuse x y := lt_of_le_of_lt (abs_nonneg _) h1
  have hsq : hypotenuse x y ^ 2 = x ^ 2 + y ^ 2 := hypotenuse_sq x y
  have hxb : |x / hypotenuse x y| ≤ 1 := by
    rw [abs_div, abs_of_pos hh, div_le_one hh]
    exact abs_x_le_hypotenuse x y
  obtain ⟨hA1, hA2⟩ := angleArgs_le hi ho hh (le_of_lt h1) (le_of_lt h2)
  have hxta := xy_to_angles_eq inner outer x y hi ho h1 h2
  have hA2' := abs_le.mp hA2
  -- the radicand of `angles_to_xy`'s law-of-cosines square root collapses to h²
  have hcosE : Real.cos (π - radians (degrees (π - arccos (outerAngleArg inner outer x y)))) =
      outerAngleArg inner outer x y := by
    rw [radians_degrees, sub_sub_cancel, Real.cos_arccos hA2'.1 hA2'.2]
  have hrad : inner ^ 2 + outer ^ 2 - 2 * inner * outer *
      Real.cos (π - radians (degrees (π - arccos (outerAngleArg inner outer x y)))) =
      hypotenuse x y ^ 2 := by
    rw [hcosE]
    unfold outerAngleArg
    field_simp
  have hax : atxHypotenuse inner outer (degrees (π - arccos (outerAngleArg inner outer x y))) =
      hypotenuse x y := by
    unfold atxHypotenuse
    rw [hrad, Real.sqrt_sq (le_of_lt hh)]
  have hbase : baseAngleArg inner outer (degrees (π - arccos (outerAngleArg inner outer x y))) =
      innerAngleArg inner outer x y := by
    unfold baseAngleArg
    rw [hax]
    rfl
  unfold roundtrip
  rw [hxta]
  show angles_to_xy inner outer _ _ = _
  unfold angles_to_xy
  rw [if_neg (by rw [hrad]; exact not_lt.mpr (by positivity)),
    if_neg (by rw [hax]; exact ne_of_gt (by positivity : (0:ℝ) < 2 * hypotenuse x y * inner)),
    if_neg (by rw [hbase]; exact not_lt.mpr hA1), hbase, hax]
  have hsum : arccos (innerAngleArg inner outer x y) +
      radians (degrees (arcsin (x / hypotenuse x y) - arccos (innerAngleArg inner outer x y))) =
      arcsin (x / hypotenuse x y) := by
    rw [radians_degrees]
    ring
  rw [hsum]
  have hxb' := abs_le.mp hxb
  have hxcomp : Real.sin (arcsin (x / hypotenuse x y)) * hypotenuse x y = x := by
    rw [Real.sin_arcsin hxb'.1 hxb'.2, div_mul_cancel₀ _ (ne_of_gt hh)]
  have hyh : 1 - (x / hypotenuse x y) ^ 2 = (y / hypotenuse x y) ^ 2 := by
    rw [div_pow, div_pow, eq_div_iff (by positivity : hypotenuse x y ^ 2 ≠ 0)]
    field_simp
    linarith [hsq]
  have hycomp : Real.cos (arcsin (x / hypotenuse x y)) * hypotenuse x y = |y| := by
    rw [Real.cos_arcsin, hyh, Real.sqrt_sq_eq_abs, abs_div, abs_of_pos hh,
      div_mul_cancel₀ _ (ne_of_gt hh)]
  rw [hxcomp, hycomp]

/-- C2 (amended):  For positive arm lengths and a target `(x, y)` with
`y ≥ 0` whose hypotenuse lies strictly inside the annulus,
`angles_to_xy (xy_to_angles (x, y)) = (x, y)` exactly over the reals.
(The claim as stated — for *every* reachable position — fails for `y < 0`:
the composite returns `(x, |y|)`; see the counterexample.) -/
theorem roundtrip_exact (inner outer x y : ℝ) (hi : 0 < inner) (ho : 0 < outer)
    (hy : 0 ≤ y) (h1 : |inner - outer| < hypotenuse x y)
    (h2 : hypotenuse x y < inner + outer) :
    roundtrip inner outer x y = some (x, y) := by
  rw [roundtrip_abs inner outer x y hi ho h1 h2, abs_of_nonneg hy]

theorem hyp_0_8 : hypotenuse 0 8 = 8 := by
  unfold hypotenuse
  rw [show (0:ℝ) ^ 2 + 8 ^ 2 = 8 ^ 2 by norm_num, Real.sqrt_sq (by norm_num : (0:ℝ) ≤ 8)]

theorem hyp_0_neg8 : hypotenuse 0 (-8) = 8 := by
  unfold hypotenuse
  rw [show (0:ℝ) ^ 2 + (-8) ^ 2 = 8 ^ 2 by norm_num, Real.sqrt_sq (by norm_num : (0:ℝ) ≤ 8)]

/-- C2 (counterexample):  With both arms of length 8, the reachable
position `(0, -8)` (hypotenuse 8, strictly inside the annulus `(0, 16)`))
round-trips to `(0, 8)`, not `(0, -8)`. -/
theorem roundtrip_cex :
    roundtrip 8 8 0 (-8) = some (0, 8) ∧ ((0:ℝ), (8:ℝ)) ≠ ((0:ℝ), (-8:ℝ)) := by
  constructor
  · rw [roundtrip_abs 8 8 0 (-8) (by norm_num) (by norm_num)
      (by rw [hyp_0_neg8]; norm_num) (by rw [hyp_0_neg8]; norm_num)]
    norm_num
  · simp only [ne_eq, Prod.mk.injEq, not_and]
    intro
    norm_num

/-- Witness for `roundtrip_exact` at arms (8, 8) and target (0, 8). -/
theorem roundtrip_exact_witness :
    (0:ℝ) < 8 ∧ (0:ℝ) ≤ 8 ∧ |(8:ℝ) - 8| < hypotenuse 0 8 ∧ hypotenuse 0 8 < 8 + 8 ∧
      roundtrip 8 8 0 8 = some (0, 8) := by
  refine ⟨by norm_num, by norm_num, by rw [hyp_0_8]; norm_num, by rw [hyp_0_8]; norm_num, ?_⟩
  exact roundtrip_exact 8 8 0 8 (by norm_num) (by norm_num) (by norm_num)
    (by rw [hyp_0_8]; norm_num) (by rw [hyp_0_8]; norm_num)

theorem hyp_20_20_gt_16 : (16:ℝ) < hypotenuse 20 20 := by
  unfold hypotenuse
  rw [show (20:ℝ) ^ 2 + 20 ^ 2 = 800 by norm_num]
  nlinarith [Real.sq_sqrt (by norm_num : (0:ℝ) ≤ 800), Real.sqrt_nonneg (800:ℝ)]

/-- Witness for `xy_to_angles_unreachable`: with arms (8, 8), the target
(20, 20) (hypotenuse √800 > 16) raises, and the target (0, 8) does not. -/
theorem xy_to_angles_unreachable_witness :
    (0:ℝ) < 8 ∧ ((8:ℝ) + 8 < hypotenuse 20 20) ∧
      xy_to_angles 8 8 20 20 = none ∧
      |(8:ℝ) - 8| < hypotenuse 0 8 ∧ hypotenuse 0 8 < 8 + 8 ∧
      (xy_to_angles 8 8 0 8).isSome = true := by
  have h16 : (8:ℝ) + 8 < hypotenuse 20 20 := by linarith [hyp_20_20_gt_16]
  refine ⟨by norm_num, h16, ?_, by rw [hyp_0_8]; norm_num, by rw [hyp_0_8]; norm_num, ?_⟩
  · exact (xy_to_angles_unreachable 8 8 20 20 (by norm_num) (by norm_num)).1
      (Or.inr (Or.inr h16))
  · exact (xy_to_angles_unreachable 8 8 0 8 (by norm_num) (by norm_num)).2
      (by rw [hyp_0_8]; norm_num) (by rw [hyp_0_8]; norm_num)

/-! ## The stateful motion methods (source lines 408-527)

`Cfg` holds the constructor-time configuration (arm lengths, mode, the
per-servo angle→pulse-width functions created in `__init__`); `PState`
holds the mutable attributes of the `BrachioGraph` object that the motion
methods read and write.  A method that can raise returns `Res`: `.ok s`
for normal return, `.err s` for a propagating exception — `s` being the
object's state at that moment, since Python keeps all mutations performed
before the raise. -/

/-- Constructor-time configuration of a `BrachioGraph`. -/
structure Cfg where
  inner : ℝ
  outer : ℝ
  virtualMode : Bool
  angles_to_pw_1 : ℝ → ℝ
  angles_to_pw_2 : ℝ → ℝ

/-- The mutable attributes of the object that the motion methods touch.
`angle_1` / `angle_2` are `Option`s because `__init__` does not set them;
they first exist after `set_angles` runs.  `sink` is the history of
`rpi.set_servo_pulsewidth(channel, pw)` hardware writes (real mode);
`commands` is a bookkeeping ledger (not a Python attribute) recording
every pulse-width command accepted by `set_pulse_widths`, used to state
when an actuator command is issued. -/
structure PState where
  current_x : ℝ
  current_y : ℝ
  angle_1 : Option ℝ
  angle_2 : Option ℝ
  virtual_pw_1 : ℝ
  virtual_pw_2 : ℝ
  penDown : Bool
  sink : List (ℕ × ℝ)
  commands : List (ℝ × ℝ)

/-- Result of a stateful method: normal return, or a propagating Python
exception; both carry the object's state. -/
inductive Res where
  | ok (s : PState)
  | err (s : PState)

/-- The naive linear calibration for servo 1 (source lines 479-480). -/
def naive_angles_to_pulse_widths_1 (servo_1_zero servo_1_degree_ms angle : ℝ) : ℝ :=
  (angle + 90) * servo_1_degree_ms + servo_1_zero

/-- The naive linear calibration for servo 2 (source lines 482-483). -/
def naive_angles_to_pulse_widths_2 (servo_2_zero servo_2_degree_ms angle : ℝ) : ℝ :=
  (angle - 90) * servo_2_degree_ms + servo_2_zero

/-- The last pulse width written to a channel of the pigpio sink.
Modelled from the spec: the external `ActuatorSink.getPulseWidth(channel)`
(spec §6) reports the currently driven pulse width, i.e. the last value
set on that channel (0 if never driven). -/
def lastWrite (channel : ℕ) (sink : List (ℕ × ℝ)) : ℝ :=
  ((sink.reverse.find? fun c => c.1 == channel).map Prod.snd).getD 0

/-- Models `BrachioGraph.get_pulse_widths` (source lines 515-527). -/
def get_pulse_widths (cfg : Cfg) (s : PState) : ℝ × ℝ :=
  if cfg.virtualMode then (s.virtual_pw_1, s.virtual_pw_2)
  else (lastWrite 14 s.sink, lastWrite 15 s.sink)

/-- Models `BrachioGraph.set_pulse_widths` (source lines 497-512).  In virtual
mode the band check `(500 < pw_1 < 2500) and (500 < pw_2 < 2500)` guards
the update, raising `ValueError` otherwise — and the update stores
`angles_to_pw_i(pw_i)`, the angle→pulse-width polynomial applied to a
*pulse width* (source lines 503-504, faithfully reproduced).  In real
mode there is no check: the values go straight to the hardware sink. -/
def set_pulse_widths (cfg : Cfg) (s : PState) (pw_1 pw_2 : ℝ) : Res :=
  if cfg.virtualMode then
    if 500 < pw_1 ∧ pw_1 < 2500 ∧ 500 < pw_2 ∧ pw_2 < 2500 then
      .ok { s with virtual_pw_1 := cfg.angles_to_pw_1 pw_1,
                   virtual_pw_2 := cfg.angles_to_pw_2 pw_2,
                   commands := s.commands ++ [(pw_1, pw_2)] }
    else .err s
  else
    .ok { s with sink := s.sink ++ [(14, pw_1), (15, pw_2)],
                 commands := s.commands ++ [(pw_1, pw_2)] }

/-- Models `BrachioGraph.set_angles` (source lines 461-474; the `angles_used` /
`pulse_widths_used` reporting sets are omitted — they feed only
`report()`).  The angle attributes are assigned only after
`set_pulse_widths` returns without raising, as in the source. -/
def set_angles (cfg : Cfg) (s : PState) (angle_1 angle_2 : ℝ) : Res :=
  match set_pulse_widths cfg s (cfg.angles_to_pw_1 angle_1) (cfg.angles_to_pw_2 angle_2) with
  | .err s' => .err s'
  | .ok s' => .ok { s' with angle_1 := some angle_1, angle_2 := some angle_2 }

/-- Python's `int()` truncation toward zero, on a real. -/
def pyInt (t : ℝ) : ℤ := if 0 ≤ t then ⌊t⌋ else ⌈t⌉

/-- Line 436: `no_of_steps = int(length * interpolate) or 1`. -/
def xySteps (interpolate length : ℝ) : ℤ :=
  if pyInt (length * interpolate) = 0 then 1 else pyInt (length * interpolate)

/-- The interpolation loop of `xy` (source lines 446-456, sleeps elided):
each step advances `current_x` / `current_y` by one step length, converts
the new position, and drives the servos; an exception propagates with the
partially-updated state. -/
def xyLoop (cfg : Cfg) (sx sy : ℝ) : ℕ → PState → Res
  | 0, s => .ok s
  | Nat.succ k, s =>
    let s1 := { s with current_x := s.current_x + sx, current_y := s.current_y + sy }
    match xy_to_angles cfg.inner cfg.outer s1.current_x s1.current_y with
    | none => .err s1
    | some a =>
      match set_angles cfg s1 a.1 a.2 with
      | .err s2 => .err s2
      | .ok s2 => xyLoop cfg sx sy k s2

/-- Models `BrachioGraph.xy` (source lines 408-458, sleeps and progress bars
elided).  The pen is set first (lines 411-414); the target is converted
and the short-circuit of line 420 compares the target pulse widths with
`get_pulse_widths()`; otherwise the move is split into
`int(length * interpolate) or 1` steps. -/
def xy (cfg : Cfg) (s : PState) (x y wait interpolate : ℝ) (draw : Bool) : Res :=
  match xy_to_angles cfg.inner cfg.outer x y with
  | none => .err { s with penDown := draw }
  | some a =>
    if (cfg.angles_to_pw_1 a.1, cfg.angles_to_pw_2 a.2) =
        get_pulse_widths cfg { s with penDown := draw } then
      .ok { s with penDown := draw, current_x := x, current_y := y }
    else
      xyLoop cfg
        ((x - s.current_x) /
          ((xySteps interpolate (Real.sqrt ((x - s.current_x) ^ 2 + (y - s.current_y) ^ 2)) : ℤ) : ℝ))
        ((y - s.current_y) /
          ((xySteps interpolate (Real.sqrt ((x - s.current_x) ^ 2 + (y - s.current_y) ^ 2)) : ℤ) : ℝ))
        (xySteps interpolate (Real.sqrt ((x - s.current_x) ^ 2 + (y - s.current_y) ^ 2))).toNat
        { s with penDown := draw }

/-- C8 (amended):  In *virtual* mode, `set_pulse_widths` raises
(`ValueError`) exactly when either pulse width falls outside the open
band (500, 2500), before any state change or actuator command; when both
are in band it records exactly the one command `(pw_1, pw_2)` and never
touches the hardware sink.  In *real* mode, however, the source performs
no validation at all (lines 509-512 write the values straight to the
hardware) — so the claim's "in both virtual and real actuator modes" is
false; see the counterexample. -/
theorem set_pulse_widths_guard (cfg : Cfg) (s : PState) (pw_1 pw_2 : ℝ)
    (hv : cfg.virtualMode = true) :
    (set_pulse_widths cfg s pw_1 pw_2 = .err s ↔
      ¬(500 < pw_1 ∧ pw_1 < 2500 ∧ 500 < pw_2 ∧ pw_2 < 2500)) ∧
    (∀ s', set_pulse_widths cfg s pw_1 pw_2 = .ok s' →
      (500 < pw_1 ∧ pw_1 < 2500 ∧ 500 < pw_2 ∧ pw_2 < 2500) ∧
        s'.sink = s.sink ∧ s'.commands = s.commands ++ [(pw_1, pw_2)]) := by
  unfold set_pulse_widths
  rw [hv]
  simp only [if_true]
  split_ifs with hband
  · constructor
    · constructor
      · intro h
        exact absurd h (by simp)
      · intro h
        exact absurd hband h
    · intro s' h
      cases h
      exact ⟨hband, rfl, rfl⟩
  · constructor
    · constructor
      · intro _
        exact hband
      · intro _
        rfl
    · intro s' h
      exact absurd h (by simp)

def c8cfg : Cfg :=
  { inner := 8, outer := 8, virtualMode := false,
    angles_to_pw_1 := naive_angles_to_pulse_widths_1 1500 (-10),
    angles_to_pw_2 := naive_angles_to_pulse_widths_2 1500 10 }

def c8state : PState :=
  { current_x := -8, current_y := 8, angle_1 := none, angle_2 := none,
    virtual_pw_1 := 1500, virtual_pw_2 := 1500, penDown := false,
    sink := [], commands := [] }

/-- C8 (counterexample):  In real (non-virtual) mode, a pulse width of
3000 µs — far outside the safe band — is written to the hardware sink
without any error: the source's real-mode branch has no validation. -/
theorem set_pulse_widths_cex :
    set_pulse_widths c8cfg c8state 3000 1500 =
      .ok { c8state with sink := [(14, 3000), (15, 1500)], commands := [(3000, 1500)] } ∧
      ¬((3000 : ℝ) ≤ 2500) := by
  constructor
  · rfl
  · norm_num

def c8vcfg : Cfg :=
  { inner := 8, outer := 8, virtualMode := true,
    angles_to_pw_1 := naive_angles_to_pulse_widths_1 1500 (-10),
    angles_to_pw_2 := naive_angles_to_pulse_widths_2 1500 10 }

def c8vstate : PState :=
  { current_x := -8, current_y := 8, angle_1 := none, angle_2 := none,
    virtual_pw_1 := 1500, virtual_pw_2 := 1500, penDown := false,
    sink := [], commands := [] }

/-- Witness for `set_pulse_widths_guard`: in virtual mode, the out-of-band
pulse width 300 µs is rejected. -/
theorem set_pulse_widths_guard_witness :
    c8vcfg.virtualMode = true ∧
    ((set_pulse_widths c8vcfg c8vstate 300 1500 = .err c8vstate ↔
        ¬((500:ℝ) < 300 ∧ (300:ℝ) < 2500 ∧ (500:ℝ) < 1500 ∧ (1500:ℝ) < 2500)) ∧
      (∀ s', set_pulse_widths c8vcfg c8vstate 300 1500 = .ok s' →
        ((500:ℝ) < 300 ∧ (300:ℝ) < 2500 ∧ (500:ℝ) < 1500 ∧ (1500:ℝ) < 2500) ∧
          s'.sink = c8vstate.sink ∧ s'.commands = c8vstate.commands ++ [(300, 1500)])) :=
  ⟨rfl, set_pulse_widths_guard c8vcfg c8vstate 300 1500 rfl⟩

/-! ### Concrete kinematics evaluations shared by the motion claims -/

theorem hyp_0_0 : hypotenuse 0 0 = 0 := by
  unfold hypotenuse
  rw [show (0:ℝ) ^ 2 + 0 ^ 2 = 0 by norm_num, Real.sqrt_zero]

theorem xta_0_0 (inner outer : ℝ) : xy_to_angles inner outer 0 0 = none := by
  unfold xy_to_angles
  rw [if_pos hyp_0_0]

theorem hyp_8_neg6 : hypotenuse 8 (-6) = 10 := by
  unfold hypotenuse
  rw [show (8:ℝ) ^ 2 + (-6) ^ 2 = 10 ^ 2 by norm_num,
    Real.sqrt_sq (by norm_num : (0:ℝ) ≤ 10)]

theorem xta_8_8_20_20 : xy_to_angles 8 8 20 20 = none := by
  have hsq : hypotenuse 20 20 ^ 2 = 800 := by rw [hypotenuse_sq]; norm_num
  have hsmall : outerAngleArg 8 8 20 20 < -1 := by
    unfold outerAngleArg
    rw [div_lt_iff (by norm_num : (0:ℝ) < 2 * 8 * 8), hsq]
    norm_num
  have habs : 1 < |outerAngleArg 8 8 20 20| := by
    rw [lt_abs]
    right
    linarith
  unfold xy_to_angles
  split_ifs <;> try rfl

theorem degrees_pi_div_two : degrees (π / 2) = 90 := by
  unfold degrees
  field_simp
  ring

theorem degrees_neg_pi_div_two : degrees (-(π / 2)) = -90 := by
  unfold degrees
  field_simp
  ring

theorem degrees_lt_degrees {a b : ℝ} (h : a < b) : degrees a < degrees b := by
  unfold degrees
  have hp := Real.pi_pos
  rw [div_lt_div_iff hp hp]
  nlinarith

theorem arccos_one_half : arccos (1 / 2) = π / 3 := by
  rw [← Real.cos_pi_div_three]
  exact Real.arccos_cos (by positivity) (by linarith [Real.pi_pos])

/-- The conversion of the target (8, -6) for arms (8, 6): the elbow angle
is exactly 90°, and the shoulder stays symbolic. -/
theorem xta_8_6_8_neg6 : xy_to_angles 8 6 8 (-6) =
    some (degrees (arcsin (4 / 5) - arccos (4 / 5)), 90) := by
  have h10 := hyp_8_neg6
  rw [xy_to_angles_eq 8 6 8 (-6) (by norm_num) (by norm_num)
    (by rw [h10]; norm_num) (by rw [h10]; norm_num)]
  have hIA : innerAngleArg 8 6 8 (-6) = 4 / 5 := by
    unfold innerAngleArg
    rw [h10]
    norm_num
  have hOA : outerAngleArg 8 6 8 (-6) = 0 := by
    unfold outerAngleArg
    rw [hypotenuse_sq]
    norm_num
  rw [hIA, hOA, h10, Real.arccos_zero, show π - π / 2 = π / 2 by ring, degrees_pi_div_two]
  norm_num

/-- The shoulder motor angle for target (8, -6), arms (8, 6), is strictly
above -90°: its pulse width therefore differs from the parked 1500 µs. -/
theorem shoulder_gt_neg90 : -90 < degrees (arcsin (4 / 5) - arccos (4 / 5)) := by
  have h1 : 0 < arcsin ((4:ℝ) / 5) := Real.arcsin_pos.mpr (by norm_num)
  have h2 : arccos ((4:ℝ) / 5) < π / 2 := Real.arccos_lt_pi_div_two.mpr (by norm_num)
  have h3 : -(π / 2) < arcsin ((4:ℝ) / 5) - arccos ((4:ℝ) / 5) := by linarith
  calc (-90 : ℝ) = degrees (-(π / 2)) := degrees_neg_pi_div_two.symm
    _ < degrees (arcsin (4 / 5) - arccos (4 / 5)) := degrees_lt_degrees h3

/-- C4 (amended):  When the conversion of the *target itself* fails
(`xy_to_angles` raises before any interpolation starts), `xy` aborts with
the propagating error and `SessionState` — `current_x`, `current_y`,
`angle_1`, `angle_2` — is exactly its pre-call value (only the pen state
has been touched, at lines 411-414).  But there is no rollback mechanism:
when the conversion fails at an *interpolated* point mid-loop, the
partially-advanced `current_x` / `current_y` survive in the object — see
the counterexample. -/
theorem xy_unreachable_aborts (cfg : Cfg) (s : PState) (x y wait interpolate : ℝ)
    (draw : Bool) (hfail : xy_to_angles cfg.inner cfg.outer x y = none) :
    xy cfg s x y wait interpolate draw = .err { s with penDown := draw } := by
  unfold xy
  rw [hfail]

def c4vcfg : Cfg :=
  { inner := 8, outer := 8, virtualMode := true,
    angles_to_pw_1 := naive_angles_to_pulse_widths_1 1500 (-10),
    angles_to_pw_2 := naive_angles_to_pulse_widths_2 1500 10 }

def c4vstate : PState :=
  { current_x := -8, current_y := 8, angle_1 := none, angle_2 := none,
    virtual_pw_1 := 1500, virtual_pw_2 := 1500, penDown := false,
    sink := [], commands := [] }

/-- Witness for `xy_unreachable_aborts`: moving to the unreachable
(20, 20) fails and leaves the state (up to the pen) unchanged. -/
theorem xy_unreachable_aborts_witness :
    xy_to_angles c4vcfg.inner c4vcfg.outer 20 20 = none ∧
    xy c4vcfg c4vstate 20 20 0 10 false = .err { c4vstate with penDown := false } := by
  have h : xy_to_angles c4vcfg.inner c4vcfg.outer 20 20 = none := xta_8_8_20_20
  exact ⟨h, xy_unreachable_aborts c4vcfg c4vstate 20 20 0 10 false h⟩

theorem sqrt_400 : Real.sqrt 400 = 20 := by
  rw [show (400:ℝ) = 20 ^ 2 by norm_num, Real.sqrt_sq (by norm_num : (0:ℝ) ≤ 20)]

theorem xySteps_two : xySteps (1 / 10) 20 = 2 := by
  unfold xySteps pyInt
  rw [show (20:ℝ) * (1 / 10) = ((2:ℤ):ℝ) by norm_num, Int.floor_intCast,
    if_pos (by norm_num : (0:ℝ) ≤ ((2:ℤ):ℝ))]
  norm_num

def c4cfg : Cfg :=
  { inner := 8, outer := 6, virtualMode := true,
    angles_to_pw_1 := naive_angles_to_pulse_widths_1 1500 (-10),
    angles_to_pw_2 := naive_angles_to_pulse_widths_2 1500 10 }

def c4start : PState :=
  { current_x := -8, current_y := 6, angle_1 := none, angle_2 := none,
    virtual_pw_1 := 1500, virtual_pw_2 := 1500, penDown := false,
    sink := [], commands := [] }

/-- C4 (counterexample):  With arms (8, 6) — annulus (2, 14) — moving
from the parked (-8, 6) to the reachable (8, -6) with `interpolate = 1/10`
splits into 2 steps whose first interpolated point is the pivot (0, 0);
the conversion raises there, and the propagated state has `current_x = 0`,
`current_y = 0`: the pre-call values (-8, 6) are *not* restored. -/
theorem xy_midmove_no_rollback_cex :
    xy c4cfg c4start 8 (-6) 0 (1 / 10) false =
      .err { current_x := 0, current_y := 0, angle_1 := none, angle_2 := none,
             virtual_pw_1 := 1500, virtual_pw_2 := 1500, penDown := false,
             sink := [], commands := [] } ∧
      (0 : ℝ) ≠ c4start.current_x := by
  constructor
  · have hpw1 : naive_angles_to_pulse_widths_1 1500 (-10)
        (degrees (arcsin (4 / 5) - arccos (4 / 5))) < 1500 := by
      unfold naive_angles_to_pulse_widths_1
      nlinarith [shoulder_gt_neg90]
    have hne : (naive_angles_to_pulse_widths_1 1500 (-10)
          (degrees (arcsin (4 / 5) - arccos (4 / 5))),
        naive_angles_to_pulse_widths_2 1500 10 (90:ℝ)) ≠ ((1500:ℝ), (1500:ℝ)) := by
      rw [Ne, Prod.mk.injEq, not_and_or]
      exact Or.inl (ne_of_lt hpw1)
    unfold xy
    simp only [c4cfg, c4start, xta_8_6_8_neg6]
    rw [show get_pulse_widths
        { inner := 8, outer := 6, virtualMode := true,
          angles_to_pw_1 := naive_angles_to_pulse_widths_1 1500 (-10),
          angles_to_pw_2 := naive_angles_to_pulse_widths_2 1500 10 }
        { current_x := -8, current_y := 6, angle_1 := none, angle_2 := none,
          virtual_pw_1 := 1500, virtual_pw_2 := 1500, penDown := false,
          sink := [], commands := [] } = ((1500:ℝ), (1500:ℝ)) from rfl]
    rw [if_neg hne]
    rw [show ((8:ℝ) - -8) = 16 by norm_num, show ((-6:ℝ) - 6) = -12 by norm_num,
      show ((16:ℝ) ^ 2 + (-12:ℝ) ^ 2) = 400 by norm_num, sqrt_400, xySteps_two]
    rw [show ((2:ℤ):ℝ) = 2 by norm_num, show ((16:ℝ) / 2) = 8 by norm_num,
      show ((-12:ℝ) / 2) = -6 by norm_num, show ((2:ℤ).toNat) = Nat.succ 1 from rfl]
    unfold xyLoop
    simp only []
    rw [show ((-8:ℝ) + 8) = 0 by norm_num, show ((6:ℝ) + -6) = 0 by norm_num]
    simp only [xta_0_0]
  · norm_num [c4start]

theorem sqrt_64 : Real.sqrt 64 = 8 := by
  rw [show (64:ℝ) = 8 ^ 2 by norm_num, Real.sqrt_sq (by norm_num : (0:ℝ) ≤ 8)]

theorem xySteps_one_of_8 : xySteps (1 / 8) 8 = 1 := by
  unfold xySteps pyInt
  rw [show (8:ℝ) * (1 / 8) = ((1:ℤ):ℝ) by norm_num, Int.floor_intCast,
    if_pos (by norm_num : (0:ℝ) ≤ ((1:ℤ):ℝ))]
  norm_num

theorem xySteps_one_of_0 : xySteps (1 / 8) 0 = 1 := by
  unfold xySteps pyInt
  rw [show (0:ℝ) * (1 / 8) = ((0:ℤ):ℝ) by norm_num, Int.floor_intCast,
    if_pos (by norm_num : (0:ℝ) ≤ ((0:ℤ):ℝ))]
  norm_num

theorem degrees_neg_pi_div_three : degrees (-(π / 3)) = -60 := by
  unfold degrees
  field_simp
  ring

theorem degrees_pi_sub_pi_div_three : degrees (π - π / 3) = 120 := by
  unfold degrees
  field_simp
  ring

/-- With both arms 8, the target (0, 8) converts to exactly (-60°, 120°). -/
theorem xta_8_8_0_8 : xy_to_angles 8 8 0 8 = some (-60, 120) := by
  rw [xy_to_angles_eq 8 8 0 8 (by norm_num) (by norm_num)
    (by rw [hyp_0_8]; norm_num) (by rw [hyp_0_8]; norm_num)]
  have hIA : innerAngleArg 8 8 0 8 = 1 / 2 := by
    unfold innerAngleArg
    rw [hyp_0_8]
    norm_num
  have hOA : outerAngleArg 8 8 0 8 = 1 / 2 := by
    unfold outerAngleArg
    rw [hypotenuse_sq]
    norm_num
  rw [hIA, hOA, hyp_0_8, arccos_one_half,
    show ((0:ℝ) / 8) = 0 by norm_num, Real.arcsin_zero,
    show (0:ℝ) - π / 3 = -(π / 3) by ring, degrees_neg_pi_div_three,
    degrees_pi_sub_pi_div_three]

def c5cfg : Cfg :=
  { inner := 8, outer := 8, virtualMode := true,
    angles_to_pw_1 := naive_angles_to_pulse_widths_1 1500 (-10),
    angles_to_pw_2 := naive_angles_to_pulse_widths_2 1500 10 }

def c5start : PState :=
  { current_x := -8, current_y := 8, angle_1 := none, angle_2 := none,
    virtual_pw_1 := 1500, virtual_pw_2 := 1500, penDown := false,
    sink := [], commands := [] }

/-- The object state after the first `xy(0, 8)` call: note
`virtual_pw_1 = angles_to_pw_1(1200) = -11400` and
`virtual_pw_2 = angles_to_pw_2(1800) = 18600` — the source's lines 503-504
store the calibration polynomial *of a pulse width*, not the pulse width. -/
def c5s1 : PState :=
  { current_x := 0, current_y := 8, angle_1 := some (-60), angle_2 := some 120,
    virtual_pw_1 := -11400, virtual_pw_2 := 18600, penDown := false,
    sink := [], commands := [(1200, 1800)] }

/-- The object state after the second, identical `xy(0, 8)` call: the
session state (position and angles) is unchanged, but a second actuator
command was issued. -/
def c5s2 : PState :=
  { current_x := 0, current_y := 8, angle_1 := some (-60), angle_2 := some 120,
    virtual_pw_1 := -11400, virtual_pw_2 := 18600, penDown := false,
    sink := [], commands := [(1200, 1800), (1200, 1800)] }

/-- C5 (bug):  Calling `xy(0, 8)` twice in succession in virtual mode
(arms 8/8, naive calibration): the second call recomputes the target
pulse widths (1200, 1800), but `get_pulse_widths()` reports
(-11400, 18600) because `set_pulse_widths` stored
`angles_to_pw_i(pw_i)` instead of `pw_i` (source lines 503-504), so the
line-420 short-circuit is not taken and a second actuator command is
issued — `commands` grows from one entry to two — even though the
resulting SessionState (position and angles) is identical. -/
theorem xy_repeat_issues_command :
    xy c5cfg c5start 0 8 0 (1 / 8) false = .ok c5s1 ∧
    xy c5cfg c5s1 0 8 0 (1 / 8) false = .ok c5s2 ∧
    c5s2.commands.length = c5s1.commands.length + 1 ∧
    (c5s2.current_x, c5s2.current_y, c5s2.angle_1, c5s2.angle_2) =
      (c5s1.current_x, c5s1.current_y, c5s1.angle_1, c5s1.angle_2) := by
  have hpw1 : naive_angles_to_pulse_widths_1 1500 (-10) (-60 : ℝ) = 1200 := by
    unfold naive_angles_to_pulse_widths_1
    norm_num
  have hpw2 : naive_angles_to_pulse_widths_2 1500 10 (120 : ℝ) = 1800 := by
    unfold naive_angles_to_pulse_widths_2
    norm_num
  have hvpw1 : naive_angles_to_pulse_widths_1 1500 (-10) (1200 : ℝ) = -11400 := by
    unfold naive_angles_to_pulse_widths_1
    norm_num
  have hvpw2 : naive_angles_to_pulse_widths_2 1500 10 (1800 : ℝ) = 18600 := by
    unfold naive_angles_to_pulse_widths_2
    norm_num
  have hband : (500:ℝ) < 1200 ∧ (1200:ℝ) < 2500 ∧ (500:ℝ) < 1800 ∧ (1800:ℝ) < 2500 := by
    norm_num
  refine ⟨?_, ?_, by norm_num [c5s1, c5s2], by norm_num [c5s1, c5s2]⟩
  · -- first call
    unfold xy
    simp only [c5cfg, c5start, xta_8_8_0_8]
    rw [show get_pulse_widths
        { inner := 8, outer := 8, virtualMode := true,
          angles_to_pw_1 := naive_angles_to_pulse_widths_1 1500 (-10),
          angles_to_pw_2 := naive_angles_to_pulse_widths_2 1500 10 }
        { current_x := -8, current_y := 8, angle_1 := none, angle_2 := none,
          virtual_pw_1 := 1500, virtual_pw_2 := 1500, penDown := false,
          sink := [], commands := [] } = ((1500:ℝ), (1500:ℝ)) from rfl]
    rw [hpw1, hpw2, if_neg (by norm_num [Prod.mk.injEq])]
    rw [show ((0:ℝ) - -8) = 8 by norm_num, show ((8:ℝ) - 8) = 0 by norm_num,
      show ((8:ℝ) ^ 2 + (0:ℝ) ^ 2) = 64 by norm_num, sqrt_64, xySteps_one_of_8]
    rw [show ((1:ℤ):ℝ) = 1 by norm_num, show ((8:ℝ) / 1) = 8 by norm_num,
      show ((0:ℝ) / 1) = 0 by norm_num, show ((1:ℤ).toNat) = Nat.succ 0 from rfl]
    unfold xyLoop
    simp only []
    rw [show ((-8:ℝ) + 8) = 0 by norm_num, show ((8:ℝ) + 0) = 8 by norm_num]
    simp only [xta_8_8_0_8]
    unfold set_angles set_pulse_widths
    simp only []
    rw [hpw1, hpw2, if_pos trivial, if_pos hband, hvpw1, hvpw2]
    unfold xyLoop
    simp only [c5s1]
    rfl
  · -- second call
    unfold xy
    simp only [c5cfg, c5s1, xta_8_8_0_8]
    rw [show get_pulse_widths
        { inner := 8, outer := 8, virtualMode := true,
          angles_to_pw_1 := naive_angles_to_pulse_widths_1 1500 (-10),
          angles_to_pw_2 := naive_angles_to_pulse_widths_2 1500 10 }
        { current_x := 0, current_y := 8, angle_1 := some (-60), angle_2 := some 120,
          virtual_pw_1 := -11400, virtual_pw_2 := 18600, penDown := false,
          sink := [], commands := [(1200, 1800)] } = ((-11400:ℝ), (18600:ℝ)) from rfl]
    rw [hpw1, hpw2, if_neg (by norm_num [Prod.mk.injEq])]
    rw [show ((0:ℝ) - 0) = 0 by norm_num, show ((8:ℝ) - 8) = 0 by norm_num,
      show ((0:ℝ) ^ 2 + (0:ℝ) ^ 2) = 0 by norm_num, Real.sqrt_zero, xySteps_one_of_0]
    rw [show ((1:ℤ):ℝ) = 1 by norm_num, show ((0:ℝ) / 1) = 0 by norm_num,
      show ((1:ℤ).toNat) = Nat.succ 0 from rfl]
    unfold xyLoop
    simp only []
    rw [show ((0:ℝ) + 0) = 0 by norm_num, show ((8:ℝ) + 0) = 8 by norm_num]
    simp only [xta_8_8_0_8]
    unfold set_angles set_pulse_widths
    simp only []
    rw [hpw1, hpw2, if_pos trivial, if_pos hband, hvpw1, hvpw2]
    unfold xyLoop
    simp only [c5s2]
    rfl

end Kinematics

end BrachioGraph
